import Mathlib

/-!
# Verification of the Kubernetes resource-version watcher

Shallow embedding of the event-ingestion and versioned-history engine:
the change-relevance filter, generation-based deduplication, the bounded
per-resource version log, and the read API handlers.

Observed documents (Kubernetes objects decoded from JSON) are modelled by
the tree type `JValue`.  Go's `interface{}` values that may be `nil` are
modelled as `Option JValue`.  Go maps are modelled as association lists
with first-match lookup (Go maps cannot hold duplicate keys).  JSON
numbers are modelled by `Int` (the sources only ever read `generation`
integers; the `float64`/`int64`/`int` type switches of the sources all
produce the same integer on such values).
-/

namespace KubeWatch

/-- A JSON-like document tree: the generic representation of an observed
Kubernetes object after deserialization. -/
inductive JValue where
  | null : JValue
  | jbool : Bool → JValue
  | jnum : Int → JValue
  | jstr : String → JValue
  | jarr : List JValue → JValue
  | jobj : List (String × JValue) → JValue

/-- First-match lookup in an association list (Go map indexing). -/
def alookup {α : Type} : List (String × α) → String → Option α
  | [], _ => none
  | (k, v) :: rest, key => if k = key then some v else alookup rest key

/-- Insert-or-replace in an association list (Go map assignment). -/
def aupdate {α : Type} : List (String × α) → String → α → List (String × α)
  | [], k, v => [(k, v)]
  | (k', v') :: rest, k, v =>
      if k' = k then (k, v) :: rest else (k', v') :: aupdate rest k v

/-- Delete a key from an association list (Go `delete`). -/
def aerase {α : Type} (fs : List (String × α)) (k : String) : List (String × α) :=
  fs.filter (fun p => p.1 ≠ k)

/-- Replace the value stored at a key, keeping positions (Go map assignment
to an existing key). -/
def aset {α : Type} (fs : List (String × α)) (k : String) (v : α) : List (String × α) :=
  fs.map (fun p => if p.1 = k then (k, v) else p)

/-- The Go type assertion `obj.(map[string]interface{})`. -/
def JValue.asObj : JValue → Option (List (String × JValue))
  | .jobj fs => some fs
  | _ => none

/-- Shorthand for field lookup inside a `JValue` object. -/
def jfind (fs : List (String × JValue)) (k : String) : Option JValue :=
  alookup fs k

/-- Shared body of the three generation extractors: read
`metadata.generation` from an object map, 0 on any missing or non-numeric
step.  (In the Go sources the `float64`/`int64`/`int` cases all return
the numeric value; every other dynamic type falls through to `return 0`.) -/
def genFromMeta (fs : List (String × JValue)) : Int :=
  match jfind fs "metadata" with
  | some (.jobj md) =>
    match jfind md "generation" with
    | some (.jnum n) => n
    | _ => 0
  | _ => 0

/-- `getObjectGenerationFromEvent` from `envoy_gateway_watch.go`: extracts
the generation of an event object; the `*unstructured.Unstructured` and
`map[string]interface{}` branches of the source run the same metadata
lookup, so both are the object-map case here; `nil` and any other type
give 0. -/
def getObjectGenerationFromEvent : Option JValue → Int
  | none => 0
  | some v =>
    match v.asObj with
    | some fs => genFromMeta fs
    | none => 0

/-- `getObjectGenerationFromObject` from the YAML utility file: same
metadata lookup without the unstructured branch. -/
def getObjectGenerationFromObject : Option JValue → Int
  | none => 0
  | some v =>
    match v.asObj with
    | some fs => genFromMeta fs
    | none => 0

/-- The StoredObject unwrap step of `http_server.go`: if the value is a
map carrying an "object" field, take that field, else keep the value. -/
def unwrapStored (v : JValue) : JValue :=
  match v.asObj with
  | some fs =>
    match jfind fs "object" with
    | some inner => inner
    | none => v
  | none => v

/-- `getObjectGeneration` from `http_server.go`: unwraps a StoredObject
wrapper, then extracts `metadata.generation` as above. -/
def getObjectGeneration : Option JValue → Int
  | none => 0
  | some v =>
    match (unwrapStored v).asObj with
    | some fs => genFromMeta fs
    | none => 0

/-- `getObjectKind` from `http_server.go`: unwrap, then the top-level
`kind` string, "" on any failure. -/
def getObjectKind : Option JValue → String
  | none => ""
  | some v =>
    match (unwrapStored v).asObj with
    | some fs =>
      match jfind fs "kind" with
      | some (.jstr s) => s
      | _ => ""
    | none => ""

/-- `getObjectNameNamespace` from `envoy_gateway_watch.go`: the
`metadata.name` and `metadata.namespace` strings, "" on any failed
assertion. -/
def getObjectNameNamespace : Option JValue → String × String
  | none => ("", "")
  | some v =>
    match v.asObj with
    | some fs =>
      match jfind fs "metadata" with
      | some (.jobj md) =>
        let name := match jfind md "name" with | some (.jstr s) => s | _ => ""
        let nspace := match jfind md "namespace" with | some (.jstr s) => s | _ => ""
        (name, nspace)
      | _ => ("", "")
    | none => ("", "")

/-- The creationTimestamp fallback inside `getObjectTimestamp`
(`http_server.go`): the `creationTimestamp` string or "". -/
def creationFallback (md : List (String × JValue)) : String :=
  match jfind md "creationTimestamp" with
  | some (.jstr ts) => ts
  | _ => ""

/-- The managedFields branch of `getObjectTimestamp`: the `time` string
of the last `managedFields` entry, with every failure path falling
through to the `creationTimestamp` fallback. -/
def timestampFromMeta (md : List (String × JValue)) : String :=
  match jfind md "managedFields" with
  | some (.jarr mfs) =>
    match mfs.getLast? with
    | some (.jobj lastMF) =>
      (match jfind lastMF "time" with
       | some (.jstr t) => t
       | _ => creationFallback md)
    | _ => creationFallback md
  | _ => creationFallback md

/-- The post-unwrap part of `getObjectTimestamp`: look inside the
unwrapped object's metadata map, "" when the object or its metadata is
not a map. -/
def timestampFromActual (a : JValue) : String :=
  match a.asObj with
  | none => ""
  | some afs =>
    match jfind afs "metadata" with
    | some (.jobj md) => timestampFromMeta md
    | _ => ""

/-- `getObjectTimestamp` from `http_server.go`: `stored_timestamp` of a
wrapped StoredObject if present as a string; else the `time` of the last
`metadata.managedFields` entry of the (unwrapped) object; else
`creationTimestamp`; else "". -/
def getObjectTimestamp : Option JValue → String
  | none => ""
  | some v =>
    match v.asObj with
    | none => ""
    | some fs =>
      match jfind fs "stored_timestamp" with
      | some (.jstr ts) => ts
      | _ => timestampFromActual (unwrapStored v)

/-- `getCreationTimestampFromObject` from the YAML utility file:
`metadata.creationTimestamp` when it is a non-empty string, else
"unknown". -/
def getCreationTimestampFromObject : Option JValue → String
  | none => "unknown"
  | some v =>
    match v.asObj with
    | some fs =>
      match jfind fs "metadata" with
      | some (.jobj md) =>
        match jfind md "creationTimestamp" with
        | some (.jstr ts) => if ts = "" then "unknown" else ts
        | _ => "unknown"
      | _ => "unknown"
    | none => "unknown"

/-- `getModificationTimestampFromObject` from the YAML utility file: the
`time` of the last `metadata.managedFields` entry when it is a non-empty
string, else fall back to `getCreationTimestampFromObject`. -/
def getModificationTimestampFromObject : Option JValue → String
  | none => "unknown"
  | some v =>
    match v.asObj with
    | some fs =>
      match jfind fs "metadata" with
      | some (.jobj md) =>
        match jfind md "managedFields" with
        | some (.jarr mfs) =>
          match mfs.getLast? with
          | some (.jobj lastMF) =>
            (match jfind lastMF "time" with
             | some (.jstr t) =>
               if t = "" then getCreationTimestampFromObject (some v) else t
             | _ => getCreationTimestampFromObject (some v))
          | _ => getCreationTimestampFromObject (some v)
        | _ => getCreationTimestampFromObject (some v)
      | _ => getCreationTimestampFromObject (some v)
    | none => getCreationTimestampFromObject (some v)

/-! ## YAML cleaning (`CleanKubernetesObject`, `ConvertToYAML…`) -/

/-- The annotation dropped by the cleaning rule. -/
def lacAnnotation : String := "kubectl.kubernetes.io/last-applied-configuration"

/-- The metadata-cleaning steps of `CleanKubernetesObject`: copy all
metadata fields, drop the last-applied-configuration annotation (dropping
`annotations` entirely when it becomes empty), then drop
`managedFields`. -/
def cleanMetadata (md : List (String × JValue)) : List (String × JValue) :=
  let md1 :=
    match jfind md "annotations" with
    | some (.jobj ann) =>
      let ann1 := aerase ann lacAnnotation
      if ann1.isEmpty then aerase md "annotations"
      else aset md "annotations" (.jobj ann1)
    | _ => md
  aerase md1 "managedFields"

/-- The conditional field copy of `CleanKubernetesObject` (`if v, ok :=
objMap[k]; ok { cleaned[k] = v }`). -/
def optEntry (k : String) (x : Option JValue) : List (String × JValue) :=
  match x with
  | some v => [(k, v)]
  | none => []

/-- `CleanKubernetesObject` from the YAML utility file: keep `apiVersion`,
`kind`, the cleaned `metadata`, `spec` and `status`.  The Go source first
JSON round-trips the object into a map; a `nil` or non-map object leaves
that map `nil`, so every lookup fails and the cleaned object is empty. -/
def CleanKubernetesObject (obj : Option JValue) : List (String × JValue) :=
  let objMap := match obj with
    | some (.jobj fs) => fs
    | _ => []
  optEntry "apiVersion" (jfind objMap "apiVersion") ++
  optEntry "kind" (jfind objMap "kind") ++
  (match jfind objMap "metadata" with
   | some (.jobj md) => [("metadata", JValue.jobj (cleanMetadata md))]
   | _ => []) ++
  optEntry "spec" (jfind objMap "spec") ++
  optEntry "status" (jfind objMap "status")

/-- `ConvertToYAML`: clean, then render.  YAML marshalling itself is an
out-of-scope collaborator (§1 of the spec), so the renderer is a
parameter; theorems hold for every renderer. -/
def ConvertToYAML (render : List (String × JValue) → String) (obj : Option JValue) : String :=
  render (CleanKubernetesObject obj)

/-- `ConvertToYAMLWithStoredMetadata`: prepend
`timestamp: <ts>`/`generation: <n>`/`---` to the cleaned YAML, where the
timestamp is `creationTimestamp` for generation 1 and the newest
managed-field time otherwise. -/
def ConvertToYAMLWithStoredMetadata (render : List (String × JValue) → String)
    (obj : Option JValue) : String :=
  let generation := getObjectGenerationFromObject obj
  let timestamp :=
    if generation = 1 then getCreationTimestampFromObject obj
    else getModificationTimestampFromObject obj
  "timestamp: " ++ timestamp ++ "\ngeneration: " ++ toString generation ++ "\n---\n" ++
    ConvertToYAML render obj

/-! ## Event pipeline (`envoy_gateway_watch.go`) -/

/-- Watch event types. -/
inductive EventType where
  | added
  | modified
  | deleted
  deriving Repr, DecidableEq

/-- One management-audit (managedFields) entry of an event, as the
relevance filter reads it: the top-level keys of the parsed `FieldsV1`
JSON document, `none` when the entry's `FieldsV1` is nil or fails to
unmarshal (both are skipped by the source). -/
structure ManagedFieldsEntry where
  fieldsV1 : Option (List String)
  deriving Repr, DecidableEq

/-- `ResourceEvent` from `envoy_gateway_watch.go` (the arrival `Timestamp`
field is unused by the processing logic and omitted). -/
structure ResourceEvent where
  type : EventType
  resourceKind : String
  «namespace» : String
  name : String
  object : Option JValue
  managedFields : List ManagedFieldsEntry

/-- The `kind/namespace/name` resource key built by `processEvent` and
`storeVersionedResourceChange`. -/
def eventKey (ev : ResourceEvent) : String :=
  ev.resourceKind ++ "/" ++ ev.«namespace» ++ "/" ++ ev.name

/-- `hasRelevantChanges`: some managed-fields entry has a parsed top-level
key `f:metadata` or `f:spec`. -/
def hasRelevantChanges (ev : ResourceEvent) : Bool :=
  ev.managedFields.any fun mf =>
    match mf.fieldsV1 with
    | none => false
    | some keys => keys.any fun k => k == "f:metadata" || k == "f:spec"

/-- Modelled from the spec: the Redis-backed store behind
`RedisManager.PushObject` / `GetResourceObjects` / `GetAllObjects` /
`GetAllResourceKeys`, which are absent from src/ (only their callers are
present).  Per §4.4 the Store Adapter keeps, per identity key, a
newest-first list of snapshots. -/
structure Store where
  logs : List (String × List JValue)

def Store.empty : Store := ⟨[]⟩

/-- Modelled from the spec: `append(identity, snapshot)` "prepends to the
identity's VersionLog and truncates to at most MaxVersions", registering
the identity on first append (§4.4). -/
def PushObject (maxVersions : Nat) (st : Store) (key : String) (obj : JValue) : Store :=
  let old := (alookup st.logs key).getD []
  ⟨aupdate st.logs key ((obj :: old).take maxVersions)⟩

/-- Modelled from the spec: `list(identity)` "returns the identity's
VersionLog newest-first, or an empty list" (§4.4). -/
def GetResourceObjects (st : Store) (key : String) : List JValue :=
  (alookup st.logs key).getD []

/-- Modelled from the spec: the all-objects scan used by the Pipeline's
Step B dedup; it yields every stored snapshot of every identity. -/
def GetAllObjects (st : Store) : List JValue :=
  st.logs.foldr (fun p acc => p.2 ++ acc) []

/-- Modelled from the spec: `identities()` returns the identity index —
the keys under which snapshots have been appended (§4.4). -/
def GetAllResourceKeys (st : Store) : List String :=
  st.logs.map Prod.fst

/-- The per-stored-object test of the Step B dedup scan in
`storeVersionedResourceChange`: kind, generation, name and namespace all
match the event. -/
def storedMatch (ev : ResourceEvent) (newGen : Int) (obj : JValue) : Bool :=
  getObjectKind (some obj) == ev.resourceKind &&
  getObjectGenerationFromEvent (some obj) == newGen &&
  (getObjectNameNamespace (some obj)).1 == ev.name &&
  (getObjectNameNamespace (some obj)).2 == ev.«namespace»

/-- `storeVersionedResourceChange`: skip when a previous state exists with
the same generation; skip when some stored object already matches
`(kind, generation, name, namespace)`; otherwise push the event object
under `kind/namespace/name`.  The source logs and discards a push error,
so a failing push (`pushOk = false`) leaves the store unchanged.  (The
source's `newGen > 0` branches only differ in logging; both push.) -/
def storeVersionedResourceChange (maxVersions : Nat) (pushOk : Bool)
    (st : Store) (ev : ResourceEvent) (oldObj : Option JValue) : Store :=
  let newGen := getObjectGenerationFromEvent ev.object
  let oldGen := getObjectGenerationFromEvent oldObj
  if oldObj.isSome && (newGen == oldGen) then st
  else if (GetAllObjects st).any (storedMatch ev newGen) then st
  else if pushOk then PushObject maxVersions st (eventKey ev) (ev.object.getD .null)
  else st

/-- `previousStates`: the LastSeenCache.  The stored value is the (deep
copy of the) event object, which Go allows to be nil. -/
abbrev LastSeenCache := List (String × Option JValue)

/-- Reading `previousStates[key]`: a missing key and a nil stored value
both read as nil in Go. -/
def cacheGet (c : LastSeenCache) (k : String) : Option JValue :=
  (alookup c k).join

/-- The pipeline state owned by the single worker. -/
structure PipelineState where
  previousStates : LastSeenCache
  store : Store

def PipelineState.initial : PipelineState := ⟨[], Store.empty⟩

/-- The observable outcome of `processEvent`: the new state plus the
number of change-handler invocations performed (the source calls every
registered handler; handlers are side-effect-only). -/
structure ProcessResult where
  state : PipelineState
  handlerCalls : Nat

/-- `processEvent`: drop non-ADDED events without relevant changes;
otherwise read the previous state, commit via
`storeVersionedResourceChange`, invoke every registered handler, and
overwrite the last-seen cache with the event object.  `numHandlers` is
the length of the handler list registered before the worker started. -/
def processEvent (maxVersions numHandlers : Nat) (pushOk : Bool)
    (ps : PipelineState) (ev : ResourceEvent) : ProcessResult :=
  let key := eventKey ev
  if hasRelevantChanges ev = false ∧ ev.type ≠ EventType.added then
    ⟨ps, 0⟩
  else
    let oldState := cacheGet ps.previousStates key
    let store1 := storeVersionedResourceChange maxVersions pushOk ps.store ev oldState
    ⟨⟨aupdate ps.previousStates key ev.object, store1⟩, numHandlers⟩

/-- Draining the pipeline queue: fold `processEvent` over a list of
events, each paired with whether its store write succeeds. -/
def runPipeline (maxVersions numHandlers : Nat) (ps : PipelineState)
    (evs : List (Bool × ResourceEvent)) : PipelineState :=
  evs.foldl (fun s pe => (processEvent maxVersions numHandlers pe.1 s pe.2).state) ps

/-! ## Read API handlers (`http_server.go`)

The handlers are modelled for GET requests with their query parameters
passed explicitly (an absent parameter is the empty string, exactly as
`r.URL.Query().Get` yields it).  The store-read-error 500 path cannot
fire against the spec-modelled store, which has no transient failures. -/

/-- An HTTP handler outcome: an error status with its message, a YAML
body, a history listing (generation/timestamp pairs), or a resource
tuple listing. -/
inductive HttpResult where
  | err (status : Nat) (msg : String)
  | yaml (body : String)
  | history (items : List (Int × String))
  | resources (items : List (String × String × String))

/-- Decimal digit accumulation for `strconv.ParseInt`. -/
def parseDigits : List Char → Nat → Option Nat
  | [], acc => some acc
  | c :: cs, acc =>
    if c.isDigit then parseDigits cs (acc * 10 + (c.toNat - 48)) else none

/-- `strconv.ParseInt(s, 10, 64)`: an optional sign followed by at least
one decimal digit.  (64-bit overflow, which would also error, is outside
the integer model.) -/
def parseInt? (s : String) : Option Int :=
  match s.toList with
  | [] => none
  | '+' :: rest =>
    if rest.isEmpty then none else (parseDigits rest 0).map Int.ofNat
  | '-' :: rest =>
    if rest.isEmpty then none else (parseDigits rest 0).map (fun n => -(Int.ofNat n))
  | cs => (parseDigits cs 0).map Int.ofNat

/-- `handleGetResourceHistory`: 400 on a missing parameter, 404 when the
`kind/name/namespace` key holds nothing, else one
`(generation, timestamp)` pair per stored snapshot in stored order. -/
def handleGetResourceHistory (st : Store) (kind name nspace : String) : HttpResult :=
  if kind = "" || name = "" || nspace = "" then
    .err 400 "Missing required parameters: kind, name, namespace"
  else
    let resourceKey := kind ++ "/" ++ name ++ "/" ++ nspace
    let objects := GetResourceObjects st resourceKey
    if objects.isEmpty then .err 404 ("Resource not found: " ++ resourceKey)
    else .history (objects.map fun o =>
      (getObjectGeneration (some o), getObjectTimestamp (some o)))

/-- `handleGetGenerationYAML`: 400 on a missing or unparsable parameter,
404 when the `kind/name/namespace` key holds nothing or no stored
snapshot has the requested generation (a stored JSON `null` that matches
is also reported 404 by the source's nil check), else the unwrapped
snapshot rendered by `ConvertToYAMLWithStoredMetadata`. -/
def handleGetGenerationYAML (render : List (String × JValue) → String)
    (st : Store) (kind name nspace generationStr : String) : HttpResult :=
  if kind = "" || name = "" || nspace = "" || generationStr = "" then
    .err 400 "Missing required parameters: kind, name, namespace, generation"
  else
    match parseInt? generationStr with
    | none => .err 400 "Invalid generation number. Must be a positive integer."
    | some targetGeneration =>
      let resourceKey := kind ++ "/" ++ name ++ "/" ++ nspace
      let objects := GetResourceObjects st resourceKey
      if objects.isEmpty then .err 404 ("Resource not found: " ++ resourceKey)
      else
        match objects.find? (fun o => getObjectGeneration (some o) == targetGeneration) with
        | none =>
          .err 404 ("Generation " ++ toString targetGeneration ++
            " not found for resource " ++ resourceKey)
        | some found =>
          match found with
          | .null =>
            .err 404 ("Generation " ++ toString targetGeneration ++
              " not found for resource " ++ resourceKey)
          | _ =>
            .yaml (ConvertToYAMLWithStoredMetadata render (some (unwrapStored found)))

/-! ## The earlier global-queue store (`RedisManager`, part_008)

This source version keeps one global Redis list (`annotation_changes`)
of `ResourceChange` records for all resources; `PushResourceChange`
head-pushes and trims it to `maxSize`. -/

namespace GlobalQueue

/-- `ResourceChange` from part_008 (timestamp and changes payloads are
opaque to the queue logic and omitted; the queue stores the full record
with its assigned version). -/
structure ResourceChange where
  version : Int
  resourceKind : String
  «namespace» : String
  resourceName : String
  object : JValue

/-- The queue-key of a change, as `GetCurrentVersion` rebuilds it:
`kind/namespace/name`. -/
def changeKey (c : ResourceChange) : String :=
  c.resourceKind ++ "/" ++ c.«namespace» ++ "/" ++ c.resourceName

/-- `GetCurrentVersion`: the largest version among queued changes whose
rebuilt key matches, starting from 0. -/
def GetCurrentVersion (queue : List ResourceChange) (resourceKey : String) : Int :=
  queue.foldl
    (fun version c =>
      if changeKey c = resourceKey ∧ version < c.version then c.version else version)
    0

/-- Redis `LTRIM key 0 (maxSize-1)` on a list: keeps the first `maxSize`
elements; with `maxSize = 0` the stop index is `-1`, which keeps the
whole list. -/
def ltrim (maxSize : Nat) (q : List α) : List α :=
  if maxSize = 0 then q else q.take maxSize

/-- `PushResourceChange`: assign the next version for the resource key,
`LPUSH` the change (newest first), and `LTRIM` the queue to `maxSize`. -/
def PushResourceChange (maxSize : Nat) (queue : List ResourceChange)
    (resourceKey : String) (change : ResourceChange) : List ResourceChange :=
  let v := GetCurrentVersion queue resourceKey + 1
  ltrim maxSize ({ change with version := v } :: queue)

end GlobalQueue

/-! ## Concrete fixtures used by witnesses and counterexamples -/

/-- A trivial YAML renderer instance for closed evaluations. -/
def render0 : List (String × JValue) → String := fun _ => ""

/-- An observed HTTPRoute document, generation 1. -/
def o1 : JValue := .jobj
  [("apiVersion", .jstr "gateway.networking.k8s.io/v1"),
   ("kind", .jstr "HTTPRoute"),
   ("metadata", .jobj
     [("name", .jstr "example-route"),
      ("namespace", .jstr "default"),
      ("generation", .jnum 1),
      ("creationTimestamp", .jstr "2026-02-03T06:03:01Z")]),
   ("spec", .jobj [("hostnames", .jarr [.jstr "example.com"])])]

/-- The ADDED watch event carrying `o1`. -/
def ev1 : ResourceEvent :=
  { type := .added
    resourceKind := "HTTPRoute"
    «namespace» := "default"
    name := "example-route"
    object := some o1
    managedFields := [⟨some ["f:metadata", "f:spec"]⟩] }

/-- The store after the pipeline accepts and commits `ev1`. -/
def st1 : Store := (processEvent 100 0 true PipelineState.initial ev1).state.store

/-- A MODIFIED event whose only audit entry touches `f:status`. -/
def ev6 : ResourceEvent :=
  { type := .modified
    resourceKind := "HTTPRoute"
    «namespace» := "default"
    name := "example-route"
    object := some o1
    managedFields := [⟨some ["f:status"]⟩, ⟨none⟩] }

/-- A pipeline state holding one stored snapshot and one cache entry. -/
def ps6 : PipelineState :=
  ⟨[("HTTPRoute/default/example-route", some o1)],
   ⟨[("HTTPRoute/default/example-route", [o1])]⟩⟩

/-- A DELETED event for a generation never seen before (fresh state). -/
def o4 : JValue := .jobj
  [("apiVersion", .jstr "gateway.networking.k8s.io/v1"),
   ("kind", .jstr "Gateway"),
   ("metadata", .jobj
     [("name", .jstr "gw"),
      ("namespace", .jstr "default"),
      ("generation", .jnum 1)]),
   ("spec", .jobj [("gatewayClassName", .jstr "envoy")])]

def ev4 : ResourceEvent :=
  { type := .deleted
    resourceKind := "Gateway"
    «namespace» := "default"
    name := "gw"
    object := some o4
    managedFields := [⟨some ["f:spec"]⟩] }

/-- The cached generation-2 snapshot before a replay… -/
def o5old : JValue := .jobj
  [("kind", .jstr "HTTPRoute"),
   ("metadata", .jobj
     [("name", .jstr "r"), ("namespace", .jstr "default"), ("generation", .jnum 2)]),
   ("status", .jstr "old")]

/-- …and the replayed generation-2 snapshot with different status. -/
def o5new : JValue := .jobj
  [("kind", .jstr "HTTPRoute"),
   ("metadata", .jobj
     [("name", .jstr "r"), ("namespace", .jstr "default"), ("generation", .jnum 2)]),
   ("status", .jstr "new")]

def ps5 : PipelineState := ⟨[("HTTPRoute/default/r", some o5old)], Store.empty⟩

def ev5 : ResourceEvent :=
  { type := .modified
    resourceKind := "HTTPRoute"
    «namespace» := "default"
    name := "r"
    object := some o5new
    managedFields := [⟨some ["f:spec"]⟩] }

/-- A change record for exercising the global-queue store. -/
def c7c : GlobalQueue.ResourceChange :=
  { version := 0
    resourceKind := "HTTPRoute"
    «namespace» := "default"
    resourceName := "r"
    object := .null }

/-- An observed document with no `metadata.generation` field at all. -/
def o10 : JValue := .jobj
  [("apiVersion", .jstr "gateway.networking.k8s.io/v1"),
   ("kind", .jstr "HTTPRoute"),
   ("metadata", .jobj
     [("name", .jstr "nogen"),
      ("namespace", .jstr "default"),
      ("creationTimestamp", .jstr "2026-02-03T06:03:01Z")])]

/-- An ADDED event carrying the generation-less `o10`. -/
def ev10 : ResourceEvent :=
  { type := .added
    resourceKind := "HTTPRoute"
    «namespace» := "default"
    name := "nogen"
    object := some o10
    managedFields := [] }

/-- A store holding `o10` under the read API's `kind/name/namespace`
key. -/
def st10 : Store := ⟨[("HTTPRoute/nogen/default", [o10])]⟩

/-- A generation-1 HTTPRoute whose name equals its namespace (so that
the write key `kind/namespace/name` and the read key
`kind/name/namespace` coincide), carrying both a creationTimestamp and
a managed-field time. -/
def o8 : JValue := .jobj
  [("apiVersion", .jstr "gateway.networking.k8s.io/v1"),
   ("kind", .jstr "HTTPRoute"),
   ("metadata", .jobj
     [("name", .jstr "default"),
      ("namespace", .jstr "default"),
      ("generation", .jnum 1),
      ("creationTimestamp", .jstr "2026-02-03T06:03:01Z"),
      ("managedFields", .jarr
        [.jobj [("manager", .jstr "kubectl"),
                ("time", .jstr "2026-02-03T07:00:00Z")]])]),
   ("spec", .jobj [("hostnames", .jarr [.jstr "example.com"])])]

/-- The ADDED event carrying `o8`. -/
def ev8 : ResourceEvent :=
  { type := .added
    resourceKind := "HTTPRoute"
    «namespace» := "default"
    name := "default"
    object := some o8
    managedFields := [⟨some ["f:metadata", "f:spec"]⟩] }

/-- The store after the pipeline accepts and commits `ev8`. -/
def st8 : Store := (processEvent 100 0 true PipelineState.initial ev8).state.store

/-- A snapshot with no generation field but with a managed-field time,
exercising the version-timestamp rule at generation 0. -/
def o9 : JValue := .jobj
  [("apiVersion", .jstr "gateway.networking.k8s.io/v1"),
   ("kind", .jstr "HTTPRoute"),
   ("metadata", .jobj
     [("creationTimestamp", .jstr "2026-01-01T00:00:00Z"),
      ("managedFields", .jarr
        [.jobj [("time", .jstr "2026-01-02T00:00:00Z")]])])]

/-- The annotations map of the C9 witness fixture. -/
def ann9 : List (String × JValue) :=
  [("kubectl.kubernetes.io/last-applied-configuration", .jstr "big-blob"),
   ("team", .jstr "gateway")]

/-- The metadata map of the C9 witness fixture. -/
def md9 : List (String × JValue) :=
  [("name", .jstr "r"),
   ("namespace", .jstr "default"),
   ("generation", .jnum 2),
   ("annotations", .jobj ann9),
   ("managedFields", .jarr [.jobj [("time", .jstr "2026-01-02T00:00:00Z")]]),
   ("uid", .jstr "abc-123")]

/-- The document of the C9 witness fixture. -/
def fs9 : List (String × JValue) :=
  [("apiVersion", .jstr "gateway.networking.k8s.io/v1"),
   ("kind", .jstr "HTTPRoute"),
   ("metadata", .jobj md9),
   ("spec", .jobj [("hostnames", .jarr [.jstr "example.com"])]),
   ("status", .jobj [("parents", .jarr [])])]

/-! ### Spec-style timestamp rules (refinement definitions)

These definitions restate, in the spec's own derivation style, the
timestamp rules that the code actually implements; the claim theorems
compare the source functions against them. -/

/-- A string-typed JSON value. -/
def jstrVal : JValue → Option String
  | .jstr s => some s
  | _ => none

/-- An array-typed JSON value. -/
def jarrVal : JValue → Option (List JValue)
  | .jarr xs => some xs
  | _ => none

/-- The metadata map of a document. -/
def metadataOf (o : JValue) : Option (List (String × JValue)) :=
  o.asObj.bind fun fs => (jfind fs "metadata").bind JValue.asObj

/-- A string-valued field of a map. -/
def strField (md : List (String × JValue)) (k : String) : Option String :=
  (jfind md k).bind jstrVal

/-- The `time` of the newest (last-listed) management-audit entry of a
metadata map. -/
def mfTimeFromMeta (md : List (String × JValue)) : Option String :=
  (((jfind md "managedFields").bind jarrVal).bind List.getLast?).bind fun e =>
    e.asObj.bind fun mf => strField mf "time"

/-- The `time` of the newest management-audit entry of a document. -/
def lastManagedFieldTime (o : JValue) : Option String :=
  (metadataOf o).bind mfTimeFromMeta

/-- Discard an empty timestamp string. -/
def nonEmptyStr : Option String → Option String
  | some s => if s = "" then none else some s
  | none => none

/-- Spec-style tail of the history-timestamp rule: newest managed-field
time, else `creationTimestamp`, else "". -/
def tailTimestampSpec (a : JValue) : String :=
  ((lastManagedFieldTime a).orElse fun _ =>
    (metadataOf a).bind fun md => strField md "creationTimestamp").getD ""

/-- Amended-spec rule for the `/api/history` timestamp: the
`stored_timestamp` of a wrapped snapshot, else — regardless of
generation — the newest managed-field time of the unwrapped document,
else its `creationTimestamp`, else "". -/
def historyTimestampSpec (o : JValue) : String :=
  match o.asObj.bind fun fs => strField fs "stored_timestamp" with
  | some ts => ts
  | none => tailTimestampSpec (unwrapStored o)

/-- Spec-style creationTimestamp rule of the YAML header: a non-empty
`metadata.creationTimestamp`, else "unknown". -/
def creationTimestampSpecU (o : JValue) : String :=
  match nonEmptyStr ((metadataOf o).bind fun md => strField md "creationTimestamp") with
  | some ts => ts
  | none => "unknown"

/-- Amended-spec rule for the `/api/generation` header timestamp:
`creationTimestamp` (else "unknown") when the extracted generation is 1,
otherwise the newest non-empty managed-field time, falling back to
`creationTimestamp`, then "unknown". -/
def generationTimestampSpec (o : JValue) : String :=
  if getObjectGenerationFromObject (some o) = 1 then creationTimestampSpecU o
  else
    match nonEmptyStr (lastManagedFieldTime o) with
    | some t => t
    | none => creationTimestampSpecU o

/-! ### Definitions for the per-generation uniqueness invariant (C2) -/

/-- The `kind/namespace/name` serialisation of a stored snapshot's own
identity, as the Step B dedup scan extracts it. -/
def objKeyOf (o : JValue) : String :=
  getObjectKind (some o) ++ "/" ++ (getObjectNameNamespace (some o)).2 ++ "/" ++
    (getObjectNameNamespace (some o)).1

/-- A string avoiding the key separator. -/
def SlashFree (s : String) : Prop := ('/' : Char) ∉ s.data

/-- A stored snapshot whose extracted kind, name and namespace avoid the
key separator (Kubernetes kinds, names and namespaces cannot contain
`/`). -/
def SlashFreeObj (o : JValue) : Prop :=
  SlashFree (getObjectKind (some o)) ∧
  SlashFree (getObjectNameNamespace (some o)).1 ∧
  SlashFree (getObjectNameNamespace (some o)).2

/-- An event whose declared kind, name and namespace match its object's
own content — as every Watch Source constructs events (`Name:
obj.GetName()`, `Namespace: obj.GetNamespace()`, and the configured kind
equal to the object's `kind`). -/
def WellFormedEvent (ev : ResourceEvent) : Prop :=
  ev.resourceKind = getObjectKind (some (ev.object.getD .null)) ∧
  ev.name = (getObjectNameNamespace (some (ev.object.getD .null))).1 ∧
  ev.«namespace» = (getObjectNameNamespace (some (ev.object.getD .null))).2

/-- An event whose identity components avoid the key separator. -/
def SlashFreeEvent (ev : ResourceEvent) : Prop :=
  SlashFree ev.resourceKind ∧ SlashFree ev.name ∧ SlashFree ev.«namespace»

/-- The store invariant: every stored snapshot sits under the key that
serialises its own identity, with separator-free components, and no
key's log holds two snapshots of the same generation. -/
def StoreInv (st : Store) : Prop :=
  ∀ key log, alookup st.logs key = some log →
    (∀ o ∈ log, objKeyOf o = key ∧ SlashFreeObj o) ∧
    ∀ g : Int,
      (log.filter fun o => getObjectGenerationFromEvent (some o) == g).length ≤ 1

theorem alookup_aupdate_self {α : Type} (fs : List (String × α)) (k : String) (v : α) :
    alookup (aupdate fs k v) k = some v := by
  induction fs with
  | nil => simp [aupdate, alookup]
  | cons p rest ih =>
    by_cases h : p.1 = k
    · simp [aupdate, alookup, h]
    · simp [aupdate, alookup, h, ih]

theorem alookup_aupdate_ne {α : Type} (fs : List (String × α)) (k k' : String) (v : α)
    (h : k' ≠ k) : alookup (aupdate fs k v) k' = alookup fs k' := by
  have hkk : k ≠ k' := fun hh => h hh.symm
  induction fs with
  | nil => simp [aupdate, alookup, hkk]
  | cons p rest ih =>
    by_cases hp : p.1 = k
    · simp [aupdate, alookup, hp, hkk]
    · by_cases hp' : p.1 = k'
      · simp [aupdate, alookup, hp, hp', hkk, h]
      · simp [aupdate, alookup, hp, hp', ih]

theorem cacheGet_aupdate_self (c : LastSeenCache) (k : String) (v : Option JValue) :
    cacheGet (aupdate c k v) k = v := by
  simp [cacheGet, alookup_aupdate_self]

theorem jfind_def (fs : List (String × JValue)) (k : String) :
    jfind fs k = alookup fs k := rfl

theorem alookup_append {α : Type} (xs ys : List (String × α)) (k : String) :
    alookup (xs ++ ys) k = (alookup xs k).orElse fun _ => alookup ys k := by
  induction xs with
  | nil => simp [alookup, Option.orElse]
  | cons p rest ih =>
    by_cases h : p.1 = k <;> simp [alookup, h, ih, Option.orElse]

theorem alookup_aerase_self {α : Type} (fs : List (String × α)) (k : String) :
    alookup (aerase fs k) k = none := by
  induction fs with
  | nil => simp [aerase, alookup]
  | cons p rest ih =>
    by_cases hp : p.1 = k
    · have e1 : aerase (p :: rest) k = aerase rest k := by simp [aerase, hp]
      rw [e1, ih]
    · have e1 : aerase (p :: rest) k = p :: aerase rest k := by simp [aerase, hp]
      rw [e1]
      simp [alookup, hp, ih]

theorem alookup_aerase_ne {α : Type} (fs : List (String × α)) (k k' : String)
    (h : k' ≠ k) : alookup (aerase fs k) k' = alookup fs k' := by
  have hkk : k ≠ k' := fun hh => h hh.symm
  induction fs with
  | nil => simp [aerase, alookup]
  | cons p rest ih =>
    by_cases hp : p.1 = k
    · have e1 : aerase (p :: rest) k = aerase rest k := by simp [aerase, hp]
      have hp' : p.1 ≠ k' := by rw [hp]; exact hkk
      rw [e1, ih]
      simp [alookup, hp']
    · have e1 : aerase (p :: rest) k = p :: aerase rest k := by simp [aerase, hp]
      rw [e1]
      by_cases hp' : p.1 = k' <;> simp [alookup, hp', ih]

theorem alookup_aset_self {α : Type} (fs : List (String × α)) (k : String) (v w : α)
    (h : alookup fs k = some w) : alookup (aset fs k v) k = some v := by
  induction fs with
  | nil => simp [alookup] at h
  | cons p rest ih =>
    by_cases hp : p.1 = k
    · have e1 : aset (p :: rest) k v = (k, v) :: aset rest k v := by simp [aset, hp]
      rw [e1]
      simp [alookup]
    · simp only [alookup, if_neg hp] at h
      have e1 : aset (p :: rest) k v = p :: aset rest k v := by simp [aset, hp]
      rw [e1]
      simp [alookup, hp, ih h]

theorem alookup_aset_ne {α : Type} (fs : List (String × α)) (k k' : String) (v : α)
    (h : k' ≠ k) : alookup (aset fs k v) k' = alookup fs k' := by
  have hkk : k ≠ k' := fun hh => h hh.symm
  induction fs with
  | nil => simp [aset, alookup]
  | cons p rest ih =>
    by_cases hp : p.1 = k
    · have e1 : aset (p :: rest) k v = (k, v) :: aset rest k v := by simp [aset, hp]
      have hp' : p.1 ≠ k' := by rw [hp]; exact hkk
      rw [e1]
      simp [alookup, hkk, hp', ih]
    · have e1 : aset (p :: rest) k v = p :: aset rest k v := by simp [aset, hp]
      rw [e1]
      by_cases hp' : p.1 = k' <;> simp [alookup, hp', ih]

theorem alookup_optEntry_self (x : Option JValue) (k : String) :
    alookup (optEntry k x) k = x := by
  cases x <;> simp [optEntry, alookup]

theorem alookup_optEntry_ne (x : Option JValue) (k k' : String) (h : k' ≠ k) :
    alookup (optEntry k x) k' = none := by
  have hkk : k ≠ k' := fun hh => h hh.symm
  cases x <;> simp [optEntry, alookup, hkk]

/-- Reading any key of the freshly pushed store. -/
theorem GetResourceObjects_PushObject (maxV : Nat) (st : Store) (key k : String)
    (obj : JValue) :
    GetResourceObjects (PushObject maxV st key obj) k =
      if k = key then (obj :: GetResourceObjects st key).take maxV
      else GetResourceObjects st k := by
  by_cases h : k = key
  · subst h
    simp [GetResourceObjects, PushObject, alookup_aupdate_self]
  · simp [GetResourceObjects, PushObject, alookup_aupdate_ne _ _ _ _ h, h]

/-- A failing store write leaves the store unchanged: the source only
logs the push error. -/
theorem storeVersionedResourceChange_pushFail (maxV : Nat) (st : Store)
    (ev : ResourceEvent) (oldObj : Option JValue) :
    storeVersionedResourceChange maxV false st ev oldObj = st := by
  unfold storeVersionedResourceChange
  dsimp only
  split
  · rfl
  · split <;> simp

/-- `storeVersionedResourceChange` either leaves the store unchanged or
pushes the event object under the event's `kind/namespace/name` key. -/
theorem storeVersionedResourceChange_cases (maxV : Nat) (pushOk : Bool) (st : Store)
    (ev : ResourceEvent) (oldObj : Option JValue) :
    storeVersionedResourceChange maxV pushOk st ev oldObj = st ∨
    storeVersionedResourceChange maxV pushOk st ev oldObj =
      PushObject maxV st (eventKey ev) (ev.object.getD .null) := by
  unfold storeVersionedResourceChange
  dsimp only
  split
  · exact Or.inl rfl
  · split
    · exact Or.inl rfl
    · cases pushOk
      · simp
      · simp

/-- The Step B cache-generation guard: a present previous state with the
event's generation suppresses the store write. -/
theorem storeVersionedResourceChange_sameGen (maxV : Nat) (pushOk : Bool) (st : Store)
    (ev : ResourceEvent) (oldObj : Option JValue)
    (hs : oldObj.isSome = true)
    (hg : getObjectGenerationFromEvent ev.object = getObjectGenerationFromEvent oldObj) :
    storeVersionedResourceChange maxV pushOk st ev oldObj = st := by
  unfold storeVersionedResourceChange
  dsimp only
  rw [if_pos (by simp [hs, hg])]

/-- The Step B store-dedup guard: a stored object matching
`(kind, generation, name, namespace)` suppresses the store write. -/
theorem storeVersionedResourceChange_dupStored (maxV : Nat) (pushOk : Bool) (st : Store)
    (ev : ResourceEvent) (oldObj : Option JValue)
    (hdup : (GetAllObjects st).any
      (storedMatch ev (getObjectGenerationFromEvent ev.object)) = true) :
    storeVersionedResourceChange maxV pushOk st ev oldObj = st := by
  unfold storeVersionedResourceChange
  dsimp only
  split
  · rfl
  · simp [hdup]

/-- Unfolding `processEvent` on an accepted event (relevant changes, or
an ADDED event). -/
theorem processEvent_accept (maxV numH : Nat) (pushOk : Bool) (ps : PipelineState)
    (ev : ResourceEvent)
    (h : hasRelevantChanges ev = true ∨ ev.type = EventType.added) :
    processEvent maxV numH pushOk ps ev =
      ⟨⟨aupdate ps.previousStates (eventKey ev) ev.object,
        storeVersionedResourceChange maxV pushOk ps.store ev
          (cacheGet ps.previousStates (eventKey ev))⟩, numH⟩ := by
  unfold processEvent
  rw [if_neg]
  rintro ⟨hrel, hty⟩
  rcases h with h | h
  · rw [h] at hrel; cases hrel
  · exact hty h

/-- Unfolding `processEvent` on a dropped event (no relevant changes and
not ADDED): the whole state is untouched and no handler runs. -/
theorem processEvent_reject (maxV numH : Nat) (pushOk : Bool) (ps : PipelineState)
    (ev : ResourceEvent)
    (hrel : hasRelevantChanges ev = false) (hty : ev.type ≠ EventType.added) :
    processEvent maxV numH pushOk ps ev = ⟨ps, 0⟩ := by
  unfold processEvent
  rw [if_pos ⟨hrel, hty⟩]

/-! ## Claim theorems -/

/-- C1: the claim fails on the code.  The pipeline commits snapshots
under the key `kind/namespace/name` (`processEvent` /
`storeVersionedResourceChange` build
`fmt.Sprintf("%s/%s/%s", event.ResourceKind, event.Namespace, event.Name)`),
while the read API — and the repository's own API documentation — use
`kind/name/namespace`.  Concretely: the accepted generation-1 HTTPRoute
snapshot `o1` is stored under `HTTPRoute/default/example-route`, yet
`GET /api/generation?kind=HTTPRoute&name=example-route&namespace=default&generation=1`
looks up `HTTPRoute/example-route/default` and answers 404 instead of
the snapshot's YAML. -/
theorem c1_store_key_mismatch_bug :
    GetResourceObjects st1 "HTTPRoute/default/example-route" = [o1] ∧
    handleGetGenerationYAML render0 st1 "HTTPRoute" "example-route" "default" "1" =
      .err 404 "Resource not found: HTTPRoute/example-route/default" :=
  ⟨rfl, rfl⟩

/-- C6: an event whose type is not ADDED and whose audit entries declare
only top-level keys other than `f:metadata` and `f:spec` is dropped by
the relevance filter before any store access, so no VersionLog
changes. -/
theorem c6_status_noise_rejected (maxV numH : Nat) (pushOk : Bool)
    (ps : PipelineState) (ev : ResourceEvent)
    (hty : ev.type ≠ EventType.added)
    (hkeys : ∀ mf ∈ ev.managedFields, ∀ k ∈ mf.fieldsV1.getD [],
      k ≠ "f:metadata" ∧ k ≠ "f:spec") :
    (processEvent maxV numH pushOk ps ev).state.store = ps.store := by
  have hrel : hasRelevantChanges ev = false := by
    unfold hasRelevantChanges
    rw [List.any_eq_false]
    intro mf hmf
    cases hfv : mf.fieldsV1 with
    | none => simp
    | some keys =>
      simp only [Bool.not_eq_true, List.any_eq_false]
      intro k hk
      have := hkeys mf hmf k (by rw [hfv]; exact hk)
      simp [this.1, this.2]
  rw [processEvent_reject maxV numH pushOk ps ev hrel hty]

/-- C6 witness: the status-only MODIFIED event `ev6` leaves the store of
`ps6` untouched. -/
theorem c6_witness :
    ev6.type ≠ EventType.added ∧
    (processEvent 100 3 true ps6 ev6).state.store = ps6.store :=
  ⟨by decide,
   c6_status_noise_rejected 100 3 true ps6 ev6 (by decide) (by decide)⟩

/-- C3 counterexample: the claim says a failed Commit leaves the
LastSeenCache entry unchanged.  On the code, `processEvent` overwrites
`previousStates[key]` unconditionally after `storeVersionedResourceChange`
returns: processing `ev1` with a failing store write discards the event
(store unchanged) but still installs `o1` in the cache, which was empty
before. -/
theorem c3_counterexample :
    cacheGet PipelineState.initial.previousStates (eventKey ev1) = none ∧
    (processEvent 100 0 false PipelineState.initial ev1).state.store = Store.empty ∧
    cacheGet (processEvent 100 0 false PipelineState.initial ev1).state.previousStates
      (eventKey ev1) = some o1 ∧
    (some o1 ≠ (none : Option JValue)) :=
  ⟨rfl, rfl, rfl, fun h => Option.noConfusion h⟩

/-- C3 amended: when the store write of an accepted event fails, the
event is discarded without retry (store unchanged), but the
LastSeenCache entry IS overwritten with the event's snapshot, so a later
re-observation with the same generation is dropped by the cache
generation check and does not retry the store write. -/
theorem c3_amended (maxV numH : Nat) (ps : PipelineState) (ev : ResourceEvent) (o : JValue)
    (hobj : ev.object = some o)
    (hgate : hasRelevantChanges ev = true ∨ ev.type = EventType.added) :
    (processEvent maxV numH false ps ev).state.store = ps.store ∧
    cacheGet (processEvent maxV numH false ps ev).state.previousStates (eventKey ev) =
      some o ∧
    (processEvent maxV numH true (processEvent maxV numH false ps ev).state ev).state.store =
      ps.store := by
  rw [processEvent_accept maxV numH false ps ev hgate]
  dsimp only
  rw [storeVersionedResourceChange_pushFail]
  refine ⟨rfl, by rw [cacheGet_aupdate_self, hobj], ?_⟩
  rw [processEvent_accept maxV numH true _ ev hgate]
  dsimp only
  rw [cacheGet_aupdate_self]
  exact storeVersionedResourceChange_sameGen maxV true ps.store ev ev.object
    (by rw [hobj]; rfl) rfl

/-- C3 amended witness: instantiated on `ev1` from the empty state. -/
theorem c3_amended_witness :
    (processEvent 100 0 false PipelineState.initial ev1).state.store =
      PipelineState.initial.store ∧
    cacheGet (processEvent 100 0 false PipelineState.initial ev1).state.previousStates
      (eventKey ev1) = some o1 ∧
    (processEvent 100 0 true
        (processEvent 100 0 false PipelineState.initial ev1).state ev1).state.store =
      PipelineState.initial.store :=
  c3_amended 100 0 PipelineState.initial ev1 o1 rfl (Or.inl (by decide))

/-- C4 counterexample: the claim says a DELETED event never appends to
any VersionLog.  A DELETED event whose audit entries touch `f:spec` and
whose generation is absent from both the cache and the store passes the
relevance filter and the dedup, so the code pushes its snapshot: from
the empty state, processing `ev4` stores `o4`. -/
theorem c4_counterexample :
    ev4.type = EventType.deleted ∧
    GetResourceObjects PipelineState.initial.store (eventKey ev4) = [] ∧
    GetResourceObjects (processEvent 100 0 true PipelineState.initial ev4).state.store
      (eventKey ev4) = [o4] :=
  ⟨rfl, rfl, rfl⟩

/-- C4 amended: processing a DELETED event never removes or modifies
existing entries of any VersionLog: every identity's stored list is
either untouched, or — when the event is accepted and committed like any
relevant event — the event's own key receives the snapshot at its head
with only `MaxVersions` tail truncation. -/
theorem c4_amended (maxV numH : Nat) (pushOk : Bool) (ps : PipelineState)
    (ev : ResourceEvent) (_hdel : ev.type = EventType.deleted) (key : String) :
    GetResourceObjects (processEvent maxV numH pushOk ps ev).state.store key =
      GetResourceObjects ps.store key ∨
    (key = eventKey ev ∧
     GetResourceObjects (processEvent maxV numH pushOk ps ev).state.store key =
       ((ev.object.getD .null) :: GetResourceObjects ps.store key).take maxV) := by
  by_cases hgate : hasRelevantChanges ev = true ∨ ev.type = EventType.added
  · rw [processEvent_accept maxV numH pushOk ps ev hgate]
    dsimp only
    rcases storeVersionedResourceChange_cases maxV pushOk ps.store ev
        (cacheGet ps.previousStates (eventKey ev)) with hc | hc
    · rw [hc]; exact Or.inl rfl
    · rw [hc, GetResourceObjects_PushObject]
      by_cases hk : key = eventKey ev
      · exact Or.inr ⟨hk, by rw [if_pos hk, hk]⟩
      · exact Or.inl (by rw [if_neg hk])
  · push_neg at hgate
    rw [processEvent_reject maxV numH pushOk ps ev
      (by simpa using hgate.1) hgate.2]
    exact Or.inl rfl

/-- C4 amended witness: instantiated on the DELETED event `ev4`. -/
theorem c4_amended_witness :
    ev4.type = EventType.deleted ∧
    (GetResourceObjects (processEvent 100 0 true PipelineState.initial ev4).state.store
        (eventKey ev4) =
      GetResourceObjects PipelineState.initial.store (eventKey ev4) ∨
    (eventKey ev4 = eventKey ev4 ∧
     GetResourceObjects (processEvent 100 0 true PipelineState.initial ev4).state.store
        (eventKey ev4) =
       ((ev4.object.getD .null) :: GetResourceObjects PipelineState.initial.store
         (eventKey ev4)).take 100)) :=
  ⟨rfl, c4_amended 100 0 true PipelineState.initial ev4 rfl (eventKey ev4)⟩

/-- C5 counterexample: the claim says an event dropped by Step B
generation dedup invokes no handler and leaves the LastSeenCache entry
unchanged.  On the code, the dedup only suppresses the store write:
replaying generation 2 of `HTTPRoute default/r` (same generation as the
cached `o5old`, different status) still invokes all 3 registered
handlers and overwrites the cache entry with the new snapshot. -/
theorem c5_counterexample :
    getObjectGenerationFromEvent ev5.object =
      getObjectGenerationFromEvent (cacheGet ps5.previousStates (eventKey ev5)) ∧
    (processEvent 100 3 true ps5 ev5).state.store = ps5.store ∧
    (processEvent 100 3 true ps5 ev5).handlerCalls = 3 ∧
    cacheGet (processEvent 100 3 true ps5 ev5).state.previousStates (eventKey ev5) =
      some o5new ∧
    o5new ≠ o5old := by
  refine ⟨rfl, rfl, rfl, rfl, ?_⟩
  simp [o5new, o5old]

/-- C5 amended: an event dropped by Step B generation dedup (the cached
previous state has the same generation, or a stored snapshot already
matches the identity and generation) is only dropped from the store: the
handler fan-out still runs for every registered handler and the
LastSeenCache entry is overwritten with the event object. -/
theorem c5_amended (maxV numH : Nat) (ps : PipelineState) (ev : ResourceEvent)
    (hgate : hasRelevantChanges ev = true ∨ ev.type = EventType.added)
    (hdrop :
      ((cacheGet ps.previousStates (eventKey ev)).isSome = true ∧
        getObjectGenerationFromEvent ev.object =
          getObjectGenerationFromEvent (cacheGet ps.previousStates (eventKey ev))) ∨
      (GetAllObjects ps.store).any
        (storedMatch ev (getObjectGenerationFromEvent ev.object)) = true) :
    (processEvent maxV numH true ps ev).state.store = ps.store ∧
    (processEvent maxV numH true ps ev).handlerCalls = numH ∧
    cacheGet (processEvent maxV numH true ps ev).state.previousStates (eventKey ev) =
      ev.object := by
  rw [processEvent_accept maxV numH true ps ev hgate]
  dsimp only
  refine ⟨?_, rfl, cacheGet_aupdate_self _ _ _⟩
  rcases hdrop with ⟨hs, hg⟩ | hdup
  · exact storeVersionedResourceChange_sameGen maxV true ps.store ev _ hs hg
  · exact storeVersionedResourceChange_dupStored maxV true ps.store ev _ hdup

/-- C5 amended witness: instantiated on the generation-2 replay `ev5`. -/
theorem c5_amended_witness :
    (processEvent 100 3 true ps5 ev5).state.store = ps5.store ∧
    (processEvent 100 3 true ps5 ev5).handlerCalls = 3 ∧
    cacheGet (processEvent 100 3 true ps5 ev5).state.previousStates (eventKey ev5) =
      ev5.object :=
  c5_amended 100 3 ps5 ev5 (Or.inl (by decide)) (Or.inl ⟨by decide, by decide⟩)

/-- One `PushResourceChange` keeps the queue within `maxSize`. -/
theorem pushResourceChange_length_le (maxSize : Nat) (hpos : 1 ≤ maxSize)
    (q : List GlobalQueue.ResourceChange) (key : String)
    (c : GlobalQueue.ResourceChange) :
    (GlobalQueue.PushResourceChange maxSize q key c).length ≤ maxSize := by
  unfold GlobalQueue.PushResourceChange GlobalQueue.ltrim
  rw [if_neg (by omega)]
  exact List.length_take_le _ _

/-- C7: for the global-queue store of part_008 (`PushResourceChange`),
after any sequence of appends from the empty queue the queue — and hence
every identity's sub-log — has length at most `maxSize`; each append
places the versioned change at the head, and the only evicted elements
come from the tail (the remainder after the head is a prefix of the
previous queue). -/
theorem c7_bounded_newest_first (maxSize : Nat) (hpos : 1 ≤ maxSize) :
    (∀ pushes : List (String × GlobalQueue.ResourceChange),
      (pushes.foldl
        (fun q pc => GlobalQueue.PushResourceChange maxSize q pc.1 pc.2) []).length ≤
        maxSize ∧
      ∀ ident,
        ((pushes.foldl
          (fun q pc => GlobalQueue.PushResourceChange maxSize q pc.1 pc.2) []).filter
            (fun c => GlobalQueue.changeKey c == ident)).length ≤ maxSize) ∧
    (∀ (q : List GlobalQueue.ResourceChange) (key : String)
        (c : GlobalQueue.ResourceChange),
      (GlobalQueue.PushResourceChange maxSize q key c).head? =
        some { c with version := GlobalQueue.GetCurrentVersion q key + 1 } ∧
      (GlobalQueue.PushResourceChange maxSize q key c).drop 1 <+: q) := by
  obtain ⟨n, rfl⟩ : ∃ n, maxSize = n + 1 := ⟨maxSize - 1, by omega⟩
  have haux : ∀ (pushes : List (String × GlobalQueue.ResourceChange))
      (q : List GlobalQueue.ResourceChange), q.length ≤ n + 1 →
      (pushes.foldl
        (fun q pc => GlobalQueue.PushResourceChange (n + 1) q pc.1 pc.2) q).length ≤
        n + 1 := by
    intro pushes
    induction pushes with
    | nil => intro q hq; exact hq
    | cons p rest ih =>
      intro q _
      exact ih _ (pushResourceChange_length_le (n + 1) hpos q p.1 p.2)
  constructor
  · intro pushes
    refine ⟨haux pushes [] (by simp), fun ident => ?_⟩
    exact le_trans (List.length_filter_le _ _) (haux pushes [] (by simp))
  · intro q key c
    constructor
    · unfold GlobalQueue.PushResourceChange GlobalQueue.ltrim
      rw [if_neg (by omega)]
      rfl
    · unfold GlobalQueue.PushResourceChange GlobalQueue.ltrim
      rw [if_neg (by omega)]
      rw [List.take_succ_cons, List.drop_one, List.tail_cons]
      exact List.take_prefix n q

/-- C7 witness: `maxSize = 3`, pushing four changes for one key keeps the
queue at three entries, and a single push heads the queue with version
1. -/
theorem c7_witness :
    (([("HTTPRoute/default/r", c7c), ("HTTPRoute/default/r", c7c),
       ("HTTPRoute/default/r", c7c), ("HTTPRoute/default/r", c7c)].foldl
        (fun q pc => GlobalQueue.PushResourceChange 3 q pc.1 pc.2) []).length ≤ 3) ∧
    (GlobalQueue.PushResourceChange 3 [] "HTTPRoute/default/r" c7c).head? =
      some { c7c with version := 1 } ∧
    (GlobalQueue.PushResourceChange 3 [] "HTTPRoute/default/r" c7c).drop 1 <+: [] :=
  ⟨((c7_bounded_newest_first 3 (by decide)).1 _).1,
   ((c7_bounded_newest_first 3 (by decide)).2 [] "HTTPRoute/default/r" c7c).1,
   ((c7_bounded_newest_first 3 (by decide)).2 [] "HTTPRoute/default/r" c7c).2⟩

/-- Missing metadata reads as generation 0. -/
theorem genFromMeta_noMeta (fs : List (String × JValue))
    (h : jfind fs "metadata" = none) : genFromMeta fs = 0 := by
  unfold genFromMeta
  rw [h]

/-- A non-numeric `metadata.generation` reads as 0. -/
theorem genFromMeta_nonNum (fs md : List (String × JValue)) (g : JValue)
    (hm : jfind fs "metadata" = some (.jobj md))
    (hg : jfind md "generation" = some g)
    (hnn : ∀ n : Int, g ≠ .jnum n) : genFromMeta fs = 0 := by
  unfold genFromMeta
  rw [hm]
  dsimp only
  rw [hg]
  cases g <;> first | rfl | exact absurd rfl (hnn _)

/-- An object map without an `object` wrapper field is its own unwrap. -/
theorem unwrapStored_noWrapper (fs : List (String × JValue))
    (h : jfind fs "object" = none) : unwrapStored (.jobj fs) = .jobj fs := by
  unfold unwrapStored
  simp [JValue.asObj, h]

/-- An accepted event that survives both dedup checks is committed: its
key's VersionLog becomes the event object consed onto the old log,
truncated to `MaxVersions`. -/
theorem processEvent_commits (maxV numH : Nat) (ps : PipelineState) (ev : ResourceEvent)
    (hgate : hasRelevantChanges ev = true ∨ ev.type = EventType.added)
    (hcache : cacheGet ps.previousStates (eventKey ev) = none)
    (hscan : (GetAllObjects ps.store).any
      (storedMatch ev (getObjectGenerationFromEvent ev.object)) = false) :
    GetResourceObjects (processEvent maxV numH true ps ev).state.store (eventKey ev) =
      ((ev.object.getD .null) :: GetResourceObjects ps.store (eventKey ev)).take maxV := by
  rw [processEvent_accept maxV numH true ps ev hgate]
  dsimp only
  rw [hcache]
  unfold storeVersionedResourceChange
  dsimp only
  rw [if_neg (by simp), if_neg (by simp [hscan]), if_pos rfl,
    GetResourceObjects_PushObject, if_pos rfl]

/-- C10: the three generation extractors are total and yield 0 on a nil
object, a non-map object, a missing metadata map, and a non-numeric
`metadata.generation`; such snapshots are still committed by the
pipeline, and `GET /api/generation` with `generation=0` serves a stored
snapshot that has no generation field. -/
theorem c10_generation_zero_total :
    (getObjectGeneration none = 0 ∧ getObjectGenerationFromEvent none = 0 ∧
     getObjectGenerationFromObject none = 0) ∧
    (∀ v : JValue, v.asObj = none →
      getObjectGeneration (some v) = 0 ∧ getObjectGenerationFromEvent (some v) = 0 ∧
      getObjectGenerationFromObject (some v) = 0) ∧
    (∀ fs : List (String × JValue), jfind fs "metadata" = none →
      jfind fs "object" = none →
      getObjectGeneration (some (.jobj fs)) = 0 ∧
      getObjectGenerationFromEvent (some (.jobj fs)) = 0 ∧
      getObjectGenerationFromObject (some (.jobj fs)) = 0) ∧
    (∀ (fs md : List (String × JValue)) (g : JValue),
      jfind fs "metadata" = some (.jobj md) → jfind fs "object" = none →
      jfind md "generation" = some g → (∀ n : Int, g ≠ .jnum n) →
      getObjectGeneration (some (.jobj fs)) = 0 ∧
      getObjectGenerationFromEvent (some (.jobj fs)) = 0 ∧
      getObjectGenerationFromObject (some (.jobj fs)) = 0) ∧
    (∀ (maxV numH : Nat) (ps : PipelineState) (ev : ResourceEvent),
      (hasRelevantChanges ev = true ∨ ev.type = EventType.added) →
      cacheGet ps.previousStates (eventKey ev) = none →
      (GetAllObjects ps.store).any
        (storedMatch ev (getObjectGenerationFromEvent ev.object)) = false →
      GetResourceObjects (processEvent maxV numH true ps ev).state.store (eventKey ev) =
        ((ev.object.getD .null) :: GetResourceObjects ps.store (eventKey ev)).take maxV) ∧
    handleGetGenerationYAML render0 st10 "HTTPRoute" "nogen" "default" "0" =
      .yaml "timestamp: 2026-02-03T06:03:01Z\ngeneration: 0\n---\n" := by
  refine ⟨⟨rfl, rfl, rfl⟩, ?_, ?_, ?_, processEvent_commits, rfl⟩
  · intro v hv
    refine ⟨?_, ?_, ?_⟩ <;>
      simp [getObjectGeneration, getObjectGenerationFromEvent,
        getObjectGenerationFromObject, unwrapStored, hv]
  · intro fs hm hobj
    have hw := unwrapStored_noWrapper fs hobj
    have hz := genFromMeta_noMeta fs hm
    refine ⟨?_, ?_, ?_⟩ <;>
      simp [getObjectGeneration, getObjectGenerationFromEvent,
        getObjectGenerationFromObject, hw, JValue.asObj, hz]
  · intro fs md g hm hobj hg hnn
    have hw := unwrapStored_noWrapper fs hobj
    have hz := genFromMeta_nonNum fs md g hm hg hnn
    refine ⟨?_, ?_, ?_⟩ <;>
      simp [getObjectGeneration, getObjectGenerationFromEvent,
        getObjectGenerationFromObject, hw, JValue.asObj, hz]

/-- C10 witness: concrete instances — a non-map object, an object with
no metadata, a string-valued generation, and the committed
generation-less ADDED event `ev10`. -/
theorem c10_witness :
    getObjectGenerationFromEvent (some (.jarr [])) = 0 ∧
    getObjectGeneration (some (.jobj [("spec", .jobj [])])) = 0 ∧
    getObjectGenerationFromObject
      (some (.jobj [("metadata", .jobj [("generation", .jstr "one")])])) = 0 ∧
    GetResourceObjects
      (processEvent 100 0 true PipelineState.initial ev10).state.store (eventKey ev10) =
      ((ev10.object.getD .null) ::
        GetResourceObjects PipelineState.initial.store (eventKey ev10)).take 100 :=
  ⟨(c10_generation_zero_total.2.1 (.jarr []) rfl).2.1,
   (c10_generation_zero_total.2.2.1 [("spec", .jobj [])] rfl rfl).1,
   (c10_generation_zero_total.2.2.2.1 [("metadata", .jobj [("generation", .jstr "one")])]
     [("generation", .jstr "one")] (.jstr "one") rfl rfl rfl
     (fun _ h => JValue.noConfusion h)).2.2,
   c10_generation_zero_total.2.2.2.2.1 100 0 PipelineState.initial ev10
     (Or.inr rfl) rfl rfl⟩

/-! ### Equivalence of the implemented timestamp rules with their
spec-style restatements -/

theorem creationFallback_eq (md : List (String × JValue)) :
    creationFallback md = (strField md "creationTimestamp").getD "" := by
  unfold creationFallback strField
  cases h : jfind md "creationTimestamp" with
  | none => simp
  | some v => cases v <;> simp [jstrVal]

theorem timestampFromMeta_eq (md : List (String × JValue)) :
    timestampFromMeta md =
      ((mfTimeFromMeta md).orElse fun _ => strField md "creationTimestamp").getD "" := by
  unfold timestampFromMeta mfTimeFromMeta
  cases h1 : jfind md "managedFields" with
  | none => simp [*, creationFallback_eq, Option.orElse]
  | some v =>
    cases v with
    | jarr mfs =>
      cases h2 : mfs.getLast? with
      | none => simp [*, jarrVal, creationFallback_eq, Option.orElse]
      | some e =>
        cases e with
        | jobj lastMF =>
          cases h3 : jfind lastMF "time" with
          | none =>
            simp [*, jarrVal, JValue.asObj, strField, creationFallback_eq, Option.orElse]
          | some t =>
            cases t <;>
              simp [*, jarrVal, JValue.asObj, strField, jstrVal, creationFallback_eq,
                Option.orElse]
        | _ => simp [*, jarrVal, JValue.asObj, creationFallback_eq, Option.orElse]
    | _ => simp [*, jarrVal, creationFallback_eq, Option.orElse]

theorem timestampFromActual_eq (a : JValue) :
    timestampFromActual a = tailTimestampSpec a := by
  unfold timestampFromActual tailTimestampSpec lastManagedFieldTime metadataOf
  cases a with
  | jobj afs =>
    cases h1 : jfind afs "metadata" with
    | none => simp [*, JValue.asObj, Option.orElse]
    | some v =>
      cases v with
      | jobj md => simp [*, JValue.asObj, timestampFromMeta_eq, Option.orElse]
      | _ => simp [*, JValue.asObj, Option.orElse]
  | _ => simp [JValue.asObj, Option.orElse]

/-- `/api/history`'s timestamp column follows the amended rule for
every stored value. -/
theorem getObjectTimestamp_eq_spec (o : JValue) :
    getObjectTimestamp (some o) = historyTimestampSpec o := by
  unfold getObjectTimestamp historyTimestampSpec
  cases o with
  | jobj fs =>
    cases h1 : jfind fs "stored_timestamp" with
    | none => simp [*, JValue.asObj, strField, timestampFromActual_eq]
    | some v =>
      cases v <;> simp [*, JValue.asObj, strField, jstrVal, timestampFromActual_eq]
  | _ => simp [JValue.asObj, unwrapStored, tailTimestampSpec, lastManagedFieldTime,
      metadataOf, Option.orElse]

theorem getCreationTimestamp_eq_spec (o : JValue) :
    getCreationTimestampFromObject (some o) = creationTimestampSpecU o := by
  unfold getCreationTimestampFromObject creationTimestampSpecU metadataOf
  cases o with
  | jobj fs =>
    cases h1 : jfind fs "metadata" with
    | none => simp [*, JValue.asObj, nonEmptyStr]
    | some v =>
      cases v with
      | jobj md =>
        cases h2 : jfind md "creationTimestamp" with
        | none => simp [*, JValue.asObj, strField, nonEmptyStr]
        | some t =>
          cases t with
          | jstr s =>
            by_cases hs : s = "" <;>
              simp [*, JValue.asObj, strField, jstrVal, nonEmptyStr]
          | _ => simp [*, JValue.asObj, strField, jstrVal, nonEmptyStr]
      | _ => simp [*, JValue.asObj, nonEmptyStr]
  | _ => simp [JValue.asObj, nonEmptyStr]

theorem getModificationTimestamp_eq_spec (o : JValue) :
    getModificationTimestampFromObject (some o) =
      match nonEmptyStr (lastManagedFieldTime o) with
      | some t => t
      | none => creationTimestampSpecU o := by
  unfold getModificationTimestampFromObject lastManagedFieldTime metadataOf mfTimeFromMeta
  cases o with
  | jobj fs =>
    cases h1 : jfind fs "metadata" with
    | none => simp [*, JValue.asObj, nonEmptyStr, getCreationTimestamp_eq_spec]
    | some v =>
      cases v with
      | jobj md =>
        cases h2 : jfind md "managedFields" with
        | none => simp [*, JValue.asObj, jarrVal, nonEmptyStr, getCreationTimestamp_eq_spec]
        | some w =>
          cases w with
          | jarr mfs =>
            cases h3 : mfs.getLast? with
            | none =>
              simp [*, JValue.asObj, jarrVal, nonEmptyStr, getCreationTimestamp_eq_spec]
            | some e =>
              cases e with
              | jobj lastMF =>
                cases h4 : jfind lastMF "time" with
                | none =>
                  simp [*, JValue.asObj, jarrVal, strField, nonEmptyStr,
                    getCreationTimestamp_eq_spec]
                | some t =>
                  cases t with
                  | jstr s =>
                    by_cases hs : s = "" <;>
                      simp [*, JValue.asObj, jarrVal, strField, jstrVal, nonEmptyStr,
                        getCreationTimestamp_eq_spec]
                  | _ =>
                    simp [*, JValue.asObj, jarrVal, strField, jstrVal, nonEmptyStr,
                      getCreationTimestamp_eq_spec]
              | _ =>
                simp [*, JValue.asObj, jarrVal, nonEmptyStr, getCreationTimestamp_eq_spec]
          | _ => simp [*, JValue.asObj, jarrVal, nonEmptyStr, getCreationTimestamp_eq_spec]
      | _ => simp [*, JValue.asObj, nonEmptyStr, getCreationTimestamp_eq_spec]
  | _ => simp [JValue.asObj, nonEmptyStr, getCreationTimestamp_eq_spec]

/-- The `/api/generation` output always consists of the
timestamp/generation header lines, the `---` separator, and the rendered
cleaned document, with the header timestamp following the implemented
(amended) rule. -/
theorem convertToYAML_header (render : List (String × JValue) → String) (o : JValue) :
    ConvertToYAMLWithStoredMetadata render (some o) =
      "timestamp: " ++ generationTimestampSpec o ++ "\ngeneration: " ++
      toString (getObjectGenerationFromObject (some o)) ++ "\n---\n" ++
      render (CleanKubernetesObject (some o)) := by
  unfold ConvertToYAMLWithStoredMetadata ConvertToYAML generationTimestampSpec
  by_cases hg : getObjectGenerationFromObject (some o) = 1 <;>
    simp [hg, getCreationTimestamp_eq_spec, getModificationTimestamp_eq_spec]

/-- C8 counterexample: the claim says a stored generation-1 snapshot is
reported by `/api/history` with its creationTimestamp.  On the code,
`getObjectTimestamp` prefers the last managed-field time regardless of
generation: the committed ADDED generation-1 snapshot `o8`
(creationTimestamp 06:03:01Z, managed-field time 07:00:00Z) is listed
with 07:00:00Z. -/
theorem c8_counterexample :
    GetResourceObjects st8 "HTTPRoute/default/default" = [o8] ∧
    handleGetResourceHistory st8 "HTTPRoute" "default" "default" =
      .history [(1, "2026-02-03T07:00:00Z")] ∧
    ("2026-02-03T07:00:00Z" : String) ≠ "2026-02-03T06:03:01Z" :=
  ⟨rfl, rfl, by decide⟩

/-- C8 amended: `/api/history` reports, per stored snapshot, the
`stored_timestamp` of a wrapped snapshot, else the newest managed-field
time regardless of generation, else `creationTimestamp`, else "";
`/api/generation` prepends `creationTimestamp` (else "unknown") when the
extracted generation is 1 and otherwise the newest non-empty
managed-field time, falling back to `creationTimestamp`, then
"unknown". -/
theorem c8_amended :
    (∀ (st : Store) (kind name nspace : String), kind ≠ "" → name ≠ "" → nspace ≠ "" →
      GetResourceObjects st (kind ++ "/" ++ name ++ "/" ++ nspace) ≠ [] →
      handleGetResourceHistory st kind name nspace =
        .history ((GetResourceObjects st (kind ++ "/" ++ name ++ "/" ++ nspace)).map
          fun o => (getObjectGeneration (some o), historyTimestampSpec o))) ∧
    (∀ (render : List (String × JValue) → String) (o : JValue),
      ConvertToYAMLWithStoredMetadata render (some o) =
        "timestamp: " ++ generationTimestampSpec o ++ "\ngeneration: " ++
        toString (getObjectGenerationFromObject (some o)) ++ "\n---\n" ++
        render (CleanKubernetesObject (some o))) := by
  constructor
  · intro st kind name nspace hk hn hns hne
    unfold handleGetResourceHistory
    rw [if_neg (by simp [hk, hn, hns])]
    rw [if_neg (by simpa [List.isEmpty_iff] using hne)]
    congr 1
    apply List.map_congr_left
    intro o _
    rw [getObjectTimestamp_eq_spec]
  · exact convertToYAML_header

/-- C8 amended witness: instantiated on the committed snapshot `o8`. -/
theorem c8_amended_witness :
    handleGetResourceHistory st8 "HTTPRoute" "default" "default" =
      .history ((GetResourceObjects st8 "HTTPRoute/default/default").map
        fun o => (getObjectGeneration (some o), historyTimestampSpec o)) ∧
    ConvertToYAMLWithStoredMetadata render0 (some o8) =
      "timestamp: " ++ generationTimestampSpec o8 ++ "\ngeneration: " ++
      toString (getObjectGenerationFromObject (some o8)) ++ "\n---\n" ++
      render0 (CleanKubernetesObject (some o8)) :=
  ⟨c8_amended.1 st8 "HTTPRoute" "default" "default" (by decide) (by decide) (by decide)
     (fun h => List.noConfusion h),
   c8_amended.2 render0 o8⟩

/-! ### Lookup behaviour of the metadata-cleaning steps -/

theorem cleanMetadata_managedFields (md : List (String × JValue)) :
    jfind (cleanMetadata md) "managedFields" = none := by
  unfold cleanMetadata jfind
  dsimp only
  exact alookup_aerase_self _ _

theorem cleanMetadata_other (md : List (String × JValue)) (k : String)
    (h1 : k ≠ "annotations") (h2 : k ≠ "managedFields") :
    jfind (cleanMetadata md) k = jfind md k := by
  unfold cleanMetadata jfind
  dsimp only
  rw [alookup_aerase_ne _ _ _ h2]
  cases ha : jfind md "annotations" with
  | none => rw [jfind_def] at ha; rw [ha]
  | some v =>
    rw [jfind_def] at ha
    rw [ha]
    cases v with
    | jobj ann =>
      dsimp only
      by_cases he : (aerase ann lacAnnotation).isEmpty
      · rw [if_pos he, alookup_aerase_ne _ _ _ h1]
      · rw [if_neg he, alookup_aset_ne _ _ _ _ h1]
    | null => rfl
    | jbool b => rfl
    | jnum n => rfl
    | jstr s => rfl
    | jarr xs => rfl

theorem cleanMetadata_annotations (md : List (String × JValue))
    (ann : List (String × JValue))
    (ha : jfind md "annotations" = some (.jobj ann)) :
    jfind (cleanMetadata md) "annotations" =
      (if (aerase ann lacAnnotation).isEmpty then none
       else some (.jobj (aerase ann lacAnnotation))) := by
  unfold cleanMetadata jfind
  dsimp only
  rw [alookup_aerase_ne _ _ _ (by decide)]
  rw [jfind_def] at ha
  rw [ha]
  dsimp only
  by_cases he : (aerase ann lacAnnotation).isEmpty
  · rw [if_pos he, if_pos he]
    exact alookup_aerase_self _ _
  · rw [if_neg he, if_neg he]
    exact alookup_aset_self md "annotations" _ _ ha

/-- C9 counterexample: the claim prepends `timestamp: <version-timestamp>`
where the spec's version-timestamp is the newest audit time only when
`generation > 1`, else the creationTimestamp.  On the code the
managed-field branch is taken for every generation other than 1: the
generation-0 snapshot `o9` (creationTimestamp 2026-01-01, managed-field
time 2026-01-02) is rendered with the managed-field time. -/
theorem c9_counterexample :
    getObjectGenerationFromObject (some o9) = 0 ∧
    ConvertToYAMLWithStoredMetadata render0 (some o9) =
      "timestamp: 2026-01-02T00:00:00Z\ngeneration: 0\n---\n" ∧
    ("2026-01-02T00:00:00Z" : String) ≠ "2026-01-01T00:00:00Z" :=
  ⟨rfl, rfl, by decide⟩

/-- C9 amended: the rendered snapshot drops exactly the
last-applied-configuration annotation (dropping `annotations` entirely
when it becomes empty) and `metadata.managedFields`, preserves every
other `apiVersion`, `kind`, `metadata`, `spec` and `status` field, and
prepends `timestamp:`/`generation:` lines followed by `---` and the
rendered body — with the timestamp equal to the creationTimestamp when
the extracted generation is 1 and the newest managed-field time
otherwise (falling back to creationTimestamp, then "unknown"). -/
theorem c9_amended (fs md : List (String × JValue))
    (hm : jfind fs "metadata" = some (.jobj md)) :
    jfind (CleanKubernetesObject (some (.jobj fs))) "apiVersion" = jfind fs "apiVersion" ∧
    jfind (CleanKubernetesObject (some (.jobj fs))) "kind" = jfind fs "kind" ∧
    jfind (CleanKubernetesObject (some (.jobj fs))) "spec" = jfind fs "spec" ∧
    jfind (CleanKubernetesObject (some (.jobj fs))) "status" = jfind fs "status" ∧
    jfind (CleanKubernetesObject (some (.jobj fs))) "metadata" =
      some (.jobj (cleanMetadata md)) ∧
    jfind (cleanMetadata md) "managedFields" = none ∧
    (∀ k, k ≠ "annotations" → k ≠ "managedFields" →
      jfind (cleanMetadata md) k = jfind md k) ∧
    (∀ ann, jfind md "annotations" = some (.jobj ann) →
      jfind (cleanMetadata md) "annotations" =
        (if (aerase ann lacAnnotation).isEmpty then none
         else some (.jobj (aerase ann lacAnnotation)))) ∧
    (∀ render, ConvertToYAMLWithStoredMetadata render (some (.jobj fs)) =
      "timestamp: " ++ generationTimestampSpec (.jobj fs) ++ "\ngeneration: " ++
      toString (getObjectGenerationFromObject (some (.jobj fs))) ++ "\n---\n" ++
      render (CleanKubernetesObject (some (.jobj fs)))) := by
  have hclean : CleanKubernetesObject (some (.jobj fs)) =
      optEntry "apiVersion" (jfind fs "apiVersion") ++
      optEntry "kind" (jfind fs "kind") ++
      [("metadata", JValue.jobj (cleanMetadata md))] ++
      optEntry "spec" (jfind fs "spec") ++
      optEntry "status" (jfind fs "status") := by
    unfold CleanKubernetesObject
    dsimp only
    rw [hm]
  refine ⟨?_, ?_, ?_, ?_, ?_,
    cleanMetadata_managedFields md,
    fun k h1 h2 => cleanMetadata_other md k h1 h2,
    fun ann ha => cleanMetadata_annotations md ann ha,
    fun render => convertToYAML_header render _⟩
  · rw [hclean]
    simp only [jfind_def]
    cases hx : alookup fs "apiVersion" <;>
      simp [alookup_append, alookup_optEntry_self, alookup_optEntry_ne,
        alookup, Option.orElse, hx]
  · rw [hclean]
    simp only [jfind_def]
    cases hx : alookup fs "kind" <;>
      simp [alookup_append, alookup_optEntry_self, alookup_optEntry_ne,
        alookup, Option.orElse, hx]
  · rw [hclean]
    simp only [jfind_def]
    cases hx : alookup fs "spec" <;>
      simp [alookup_append, alookup_optEntry_self, alookup_optEntry_ne,
        alookup, Option.orElse, hx]
  · rw [hclean]
    simp only [jfind_def]
    cases hx : alookup fs "status" <;>
      simp [alookup_append, alookup_optEntry_self, alookup_optEntry_ne,
        alookup, Option.orElse, hx]
  · rw [hclean]
    simp only [jfind_def]
    simp [alookup_append, alookup_optEntry_self, alookup_optEntry_ne,
      alookup, Option.orElse]

/-- C9 amended witness: instantiated on the HTTPRoute document `fs9`,
whose annotations hold the dropped annotation plus one other key. -/
theorem c9_amended_witness :
    jfind (CleanKubernetesObject (some (.jobj fs9))) "apiVersion" = jfind fs9 "apiVersion" ∧
    jfind (CleanKubernetesObject (some (.jobj fs9))) "status" = jfind fs9 "status" ∧
    jfind (cleanMetadata md9) "managedFields" = none ∧
    jfind (cleanMetadata md9) "uid" = jfind md9 "uid" ∧
    jfind (cleanMetadata md9) "annotations" =
      (if (aerase ann9 lacAnnotation).isEmpty then none
       else some (.jobj (aerase ann9 lacAnnotation))) ∧
    ConvertToYAMLWithStoredMetadata render0 (some (.jobj fs9)) =
      "timestamp: " ++ generationTimestampSpec (.jobj fs9) ++ "\ngeneration: " ++
      toString (getObjectGenerationFromObject (some (.jobj fs9))) ++ "\n---\n" ++
      render0 (CleanKubernetesObject (some (.jobj fs9))) := by
  have h := c9_amended fs9 md9 rfl
  exact ⟨h.1, h.2.2.2.1, h.2.2.2.2.2.1,
    h.2.2.2.2.2.2.1 "uid" (by decide) (by decide),
    h.2.2.2.2.2.2.2.1 ann9 rfl, h.2.2.2.2.2.2.2.2 render0⟩

/-! ### The per-generation uniqueness invariant (C2) -/

theorem data_append (s t : String) : (s ++ t).data = s.data ++ t.data := by
  cases s; cases t; rfl

theorem slash_data : ("/" : String).data = ['/'] := rfl

/-- Splitting at the first separator of a separator-free-prefixed
concatenation is unambiguous. -/
theorem append_slashFree_inj (xs : List Char) (ys : List Char) :
    ∀ (xs' ys' : List Char), ('/' : Char) ∉ xs → ('/' : Char) ∉ xs' →
    xs ++ '/' :: ys = xs' ++ '/' :: ys' → xs = xs' ∧ ys = ys' := by
  induction xs with
  | nil =>
    intro xs' ys' _ h2 he
    cases xs' with
    | nil => simpa using he
    | cons c cs =>
      simp only [List.nil_append, List.cons_append, List.cons.injEq] at he
      exact absurd (he.1 ▸ List.mem_cons_self c cs) (he.1 ▸ h2)
  | cons c cs ih =>
    intro xs' ys' h1 h2 he
    cases xs' with
    | nil =>
      simp only [List.nil_append, List.cons_append, List.cons.injEq] at he
      exact absurd (he.1 ▸ List.mem_cons_self c cs) (fun hmem => h1 (he.1 ▸ hmem))
    | cons c' cs' =>
      simp only [List.cons_append, List.cons.injEq] at he
      obtain ⟨hc, he'⟩ := he
      have h1' : ('/' : Char) ∉ cs := fun hm => h1 (List.mem_cons_of_mem _ hm)
      have h2' : ('/' : Char) ∉ cs' := fun hm => h2 (List.mem_cons_of_mem _ hm)
      obtain ⟨hcs, hys⟩ := ih cs' ys' h1' h2' he'
      exact ⟨by rw [hc, hcs], hys⟩

/-- A `kind/namespace/name` key determines its components when they are
separator-free. -/
theorem key3_inj (a b c a' b' c' : String)
    (ha : SlashFree a) (ha' : SlashFree a') (hb : SlashFree b) (hb' : SlashFree b')
    (he : a ++ "/" ++ b ++ "/" ++ c = a' ++ "/" ++ b' ++ "/" ++ c') :
    a = a' ∧ b = b' ∧ c = c' := by
  have hd : a.data ++ '/' :: (b.data ++ '/' :: c.data) =
      a'.data ++ '/' :: (b'.data ++ '/' :: c'.data) := by
    have h0 := congrArg String.data he
    simpa [data_append, slash_data, List.append_assoc] using h0
  obtain ⟨h1, h2⟩ := append_slashFree_inj a.data (b.data ++ '/' :: c.data)
    a'.data (b'.data ++ '/' :: c'.data) ha ha' hd
  obtain ⟨h3, h4⟩ := append_slashFree_inj b.data c.data b'.data c'.data hb hb' h2
  exact ⟨String.ext h1, String.ext h3, String.ext h4⟩

theorem mem_joinLogs (logs : List (String × List JValue)) (key : String)
    (log : List JValue) (h : alookup logs key = some log) (o : JValue) (ho : o ∈ log) :
    o ∈ logs.foldr (fun p acc => p.2 ++ acc) [] := by
  induction logs with
  | nil => cases h
  | cons p rest ih =>
    by_cases hp : p.1 = key
    · simp only [alookup, if_pos hp] at h
      cases h
      exact List.mem_append.mpr (Or.inl ho)
    · simp only [alookup, if_neg hp] at h
      exact List.mem_append.mpr (Or.inr (ih h))

theorem mem_GetAllObjects (st : Store) (key : String) (log : List JValue)
    (h : alookup st.logs key = some log) (o : JValue) (ho : o ∈ log) :
    o ∈ GetAllObjects st :=
  mem_joinLogs st.logs key log h o ho

/-- The dedup scan reads the generation of a pushed object exactly as the
pipeline read it off the event (a nil event object is stored as JSON
null, which also reads as generation 0). -/
theorem gen_getD (x : Option JValue) :
    getObjectGenerationFromEvent (some (x.getD .null)) =
      getObjectGenerationFromEvent x := by
  cases x <;> rfl

/-- `storeVersionedResourceChange` either leaves the store unchanged, or
the dedup scan found no match and the event object is pushed. -/
theorem storeVersionedResourceChange_split (maxV : Nat) (pushOk : Bool) (st : Store)
    (ev : ResourceEvent) (oldObj : Option JValue) :
    storeVersionedResourceChange maxV pushOk st ev oldObj = st ∨
    ((GetAllObjects st).any
        (storedMatch ev (getObjectGenerationFromEvent ev.object)) = false ∧
      storeVersionedResourceChange maxV pushOk st ev oldObj =
        PushObject maxV st (eventKey ev) (ev.object.getD .null)) := by
  unfold storeVersionedResourceChange
  dsimp only
  split
  · exact Or.inl rfl
  · split
    · exact Or.inl rfl
    · next h2 =>
      cases pushOk
      · simp
      · exact Or.inr ⟨by simpa using h2, by simp⟩

/-- Prepending an element whose generation is fresh (and truncating)
keeps the per-generation count at one. -/
theorem take_cons_filter_len_le {α : Type} (maxV : Nat) (x : α) (l : List α)
    (p : α → Bool) (hl : (l.filter p).length ≤ 1)
    (hx : p x = true → (l.filter p).length = 0) :
    (((x :: l).take maxV).filter p).length ≤ 1 := by
  have hs : (((x :: l).take maxV).filter p).Sublist ((x :: l).filter p) :=
    (List.take_sublist _ _).filter p
  refine le_trans hs.length_le ?_
  by_cases hp : p x = true
  · rw [List.filter_cons_of_pos hp, List.length_cons, hx hp]
  · rw [List.filter_cons_of_neg (by simpa using hp)]
    exact hl

/-- The Step B dedup scan preserves the store invariant: a push only
happens when no stored snapshot shares the event's
`(kind, generation, name, namespace)`, and key-consistency pins every
same-key same-generation snapshot to exactly that signature. -/
theorem storeVersionedResourceChange_inv (maxV : Nat) (pushOk : Bool) (st : Store)
    (ev : ResourceEvent) (oldObj : Option JValue)
    (hwf : WellFormedEvent ev) (hsf : SlashFreeEvent ev) (hinv : StoreInv st) :
    StoreInv (storeVersionedResourceChange maxV pushOk st ev oldObj) := by
  rcases storeVersionedResourceChange_split maxV pushOk st ev oldObj with hc | ⟨hscan, hc⟩
  · rw [hc]; exact hinv
  rw [hc]
  have hkey : objKeyOf (ev.object.getD .null) = eventKey ev := by
    unfold objKeyOf eventKey
    rw [← hwf.1, ← hwf.2.1, ← hwf.2.2]
  have hsfp : SlashFreeObj (ev.object.getD .null) := by
    refine ⟨?_, ?_, ?_⟩
    · rw [← hwf.1]; exact hsf.1
    · rw [← hwf.2.1]; exact hsf.2.1
    · rw [← hwf.2.2]; exact hsf.2.2
  intro key log hlog
  unfold PushObject at hlog
  dsimp only at hlog
  by_cases hk : key = eventKey ev
  case neg =>
    rw [alookup_aupdate_ne _ _ _ _ hk] at hlog
    exact hinv key log hlog
  subst hk
  rw [alookup_aupdate_self] at hlog
  injection hlog with hlog
  subst hlog
  have hmemold : ∀ o ∈ (alookup st.logs (eventKey ev)).getD [],
      objKeyOf o = eventKey ev ∧ SlashFreeObj o := by
    cases halo : alookup st.logs (eventKey ev) with
    | none => intro o ho; simp at ho
    | some oldLog => exact (hinv _ oldLog halo).1
  have hmemall : ∀ o ∈ (alookup st.logs (eventKey ev)).getD [], o ∈ GetAllObjects st := by
    cases halo : alookup st.logs (eventKey ev) with
    | none => intro o ho; simp at ho
    | some oldLog => exact fun o ho => mem_GetAllObjects st _ oldLog halo o ho
  have hcntold : ∀ g : Int, (((alookup st.logs (eventKey ev)).getD []).filter
      (fun o => getObjectGenerationFromEvent (some o) == g)).length ≤ 1 := by
    cases halo : alookup st.logs (eventKey ev) with
    | none => intro g; simp
    | some oldLog => exact (hinv _ oldLog halo).2
  constructor
  · intro o ho
    have ho' := (List.take_sublist _ _).subset ho
    rcases List.mem_cons.mp ho' with rfl | ho''
    · exact ⟨hkey, hsfp⟩
    · exact hmemold o ho''
  · intro g
    refine take_cons_filter_len_le maxV _ _ _ (hcntold g) ?_
    intro hp
    by_contra hne
    obtain ⟨o, hofilter⟩ := List.exists_mem_of_length_pos (Nat.pos_of_ne_zero hne)
    obtain ⟨hoin, hog⟩ := List.mem_filter.mp hofilter
    obtain ⟨hokey, hosf⟩ := hmemold o hoin
    obtain ⟨hok, hons, honame⟩ := key3_inj _ _ _ _ _ _ hosf.1 hsf.1 hosf.2.2 hsf.2.2 hokey
    have hgeno : getObjectGenerationFromEvent (some o) = g := by simpa using hog
    have hgenp : getObjectGenerationFromEvent (some (ev.object.getD .null)) = g := by
      simpa using hp
    have hmatch : storedMatch ev (getObjectGenerationFromEvent ev.object) o = true := by
      unfold storedMatch
      rw [← gen_getD ev.object]
      simp [hok, honame, hons, hgeno, hgenp]
    exact (List.any_eq_false.mp hscan o (hmemall o hoin)) hmatch

theorem storeInv_empty : StoreInv Store.empty := by
  intro key log h
  cases h

theorem processEvent_inv (maxV numH : Nat) (pushOk : Bool) (ps : PipelineState)
    (ev : ResourceEvent) (hwf : WellFormedEvent ev) (hsf : SlashFreeEvent ev)
    (hinv : StoreInv ps.store) :
    StoreInv (processEvent maxV numH pushOk ps ev).state.store := by
  by_cases hgate : hasRelevantChanges ev = true ∨ ev.type = EventType.added
  · rw [processEvent_accept maxV numH pushOk ps ev hgate]
    exact storeVersionedResourceChange_inv _ _ _ _ _ hwf hsf hinv
  · push_neg at hgate
    rw [processEvent_reject maxV numH pushOk ps ev (by simpa using hgate.1) hgate.2]
    exact hinv

theorem runPipeline_inv (maxV numH : Nat) (evs : List (Bool × ResourceEvent)) :
    ∀ ps : PipelineState, StoreInv ps.store →
    (∀ pe ∈ evs, WellFormedEvent pe.2 ∧ SlashFreeEvent pe.2) →
    StoreInv (runPipeline maxV numH ps evs).store := by
  induction evs with
  | nil => intro ps h _; exact h
  | cons pe rest ih =>
    intro ps h hall
    have hstep : runPipeline maxV numH ps (pe :: rest) =
        runPipeline maxV numH (processEvent maxV numH pe.1 ps pe.2).state rest := rfl
    rw [hstep]
    have h1 := hall pe (List.mem_cons_self _ _)
    exact ih _ (processEvent_inv maxV numH pe.1 ps pe.2 h1.1 h1.2 h)
      (fun q hq => hall q (List.mem_cons_of_mem _ hq))

/-- C2: for well-formed, separator-free events (as every Watch Source
produces), after any pipeline run from the empty state every identity
key's VersionLog holds at most one snapshot per generation; and from any
store already holding a matching `(identity, generation)` — in
particular after a restart that empties the LastSeenCache — re-observing
that snapshot leaves the store unchanged. -/
theorem c2_per_generation_unique (maxV numH : Nat) (evs : List (Bool × ResourceEvent))
    (hev : ∀ pe ∈ evs, WellFormedEvent pe.2 ∧ SlashFreeEvent pe.2) :
    (∀ (key : String) (g : Int),
      ((GetResourceObjects (runPipeline maxV numH PipelineState.initial evs).store
          key).filter
        (fun o => getObjectGenerationFromEvent (some o) == g)).length ≤ 1) ∧
    (∀ (st : Store) (pushOk : Bool) (ev : ResourceEvent),
      (GetAllObjects st).any
        (storedMatch ev (getObjectGenerationFromEvent ev.object)) = true →
      (processEvent maxV numH pushOk ⟨[], st⟩ ev).state.store = st) := by
  constructor
  · intro key g
    have hinv := runPipeline_inv maxV numH evs PipelineState.initial storeInv_empty hev
    unfold GetResourceObjects
    cases halo : alookup (runPipeline maxV numH PipelineState.initial evs).store.logs key with
    | none => simp
    | some log => simpa using (hinv key log halo).2 g
  · intro st pushOk ev hdup
    by_cases hgate : hasRelevantChanges ev = true ∨ ev.type = EventType.added
    · rw [processEvent_accept maxV numH pushOk _ ev hgate]
      dsimp only
      exact storeVersionedResourceChange_dupStored maxV pushOk st ev _ hdup
    · push_neg at hgate
      rw [processEvent_reject maxV numH pushOk _ ev (by simpa using hgate.1) hgate.2]

/-- C2 witness: one accepted event yields a log with one generation-1
snapshot, and re-observing `ev1` against the store it produced (with an
empty cache, as after a restart) appends nothing. -/
theorem c2_witness :
    ((GetResourceObjects (runPipeline 100 0 PipelineState.initial [(true, ev1)]).store
        "HTTPRoute/default/example-route").filter
      (fun o => getObjectGenerationFromEvent (some o) == (1 : Int))).length ≤ 1 ∧
    (processEvent 100 0 true ⟨[], st1⟩ ev1).state.store = st1 := by
  have h := c2_per_generation_unique 100 0 [(true, ev1)] (by
    intro pe hpe
    rcases List.mem_singleton.mp hpe with rfl
    exact ⟨⟨rfl, rfl, rfl⟩,
      (by decide : ('/' : Char) ∉ "HTTPRoute".data),
      (by decide : ('/' : Char) ∉ "example-route".data),
      (by decide : ('/' : Char) ∉ "default".data)⟩)
  exact ⟨h.1 "HTTPRoute/default/example-route" 1, h.2 st1 true ev1 rfl⟩

end KubeWatch
